import Mathlib

set_option maxRecDepth 16384

/-!
Verification of the Window State Subsystem of the screenshot-mcp-server
repository.

The repository contains two implementations of the `WindowManager` class:

* the AppleScript-based one in `src/window/manager.ts` (namespace
  `WindowManager` below), whose `parseWindowList` carries a non-quote-aware
  sibling splitter, drops incomplete nested objects, and synthesizes ids as
  `pid-Date.now()`;
* an alternate one built on the `get-windows` package (namespace
  `AltWindowManager` below), whose `parseWindowList` carries a quote-aware
  and brace-depth-aware splitter (`extractNestedObjects`), substitutes
  defaults for missing attributes, and synthesizes ids as `pid-index`.

The polling event monitor lives in `src/window/events.ts` (namespace
`WindowEventMonitor` below).

JavaScript strings are modelled as `List Char` and JavaScript numbers
produced by the parsers as `JsVal` (`undef` models `undefined`, `nan`
models `NaN`, `num n` an integer value).  `Date.now()` is modelled as a
`now : Nat` parameter held fixed for one call.
-/

/-- JavaScript string, modelled as a list of characters. -/
abbrev Str := List Char

/-- Conversion from a Lean string literal to the model type. -/
def str (s : String) : Str := s.data

/-- A JavaScript numeric slot as it can occur in the parsers' partial
records: `undefined` (never assigned), `NaN` (failed `parseInt`), or an
integer value. -/
inductive JsVal where
  | undef
  | nan
  | num (n : Int)
  deriving DecidableEq, Repr

/-- Truthiness of a JavaScript number: `undefined`, `NaN` and `0` are
falsy. -/
def JsVal.truthy : JsVal → Bool
  | .num n => n != 0
  | _ => false

/-- Truthiness of an optional JavaScript string: `undefined` and the empty
string are falsy. -/
def strTruthy : Option Str → Bool
  | some s => !s.isEmpty
  | none => false

/-- JavaScript `\d`: the ASCII digits. -/
def isDigitChar (c : Char) : Bool := '0' ≤ c && c ≤ '9'

/-- Whitespace as used by JavaScript `trim` and `\s` (ASCII portion, which
covers all inputs of interest). -/
def isWsChar (c : Char) : Bool :=
  c == ' ' || c == '\t' || c == '\n' || c == '\r'

/-- JavaScript `String.prototype.trim`. -/
def jsTrim (s : Str) : Str :=
  ((s.dropWhile isWsChar).reverse.dropWhile isWsChar).reverse

/-- JavaScript `String.prototype.includes`: `needle` occurs as a contiguous
substring of `hay`. -/
def containsSub (hay needle : Str) : Bool :=
  if needle.isPrefixOf hay then true
  else
    match hay with
    | [] => false
    | _ :: t => containsSub t needle

/-- JavaScript `String.prototype.split` with a one-character separator. -/
def splitOnChar (sep : Char) (s : Str) : List Str :=
  match s with
  | [] => [[]]
  | c :: t =>
    let rest := splitOnChar sep t
    if c = sep then [] :: rest
    else
      match rest with
      | r :: rs => (c :: r) :: rs
      | [] => [[c]]

/-- Numeric value of a list of decimal digits. -/
def digitsVal (ds : Str) : Nat :=
  ds.foldl (fun acc c => acc * 10 + (c.toNat - '0'.toNat)) 0

/-- Decimal rendering of a natural number (JavaScript template-literal
interpolation of a non-negative integer). -/
def natToStr (n : Nat) : Str := Nat.toDigits 10 n

/-- JavaScript template-literal interpolation of a numeric slot. -/
def JsVal.render : JsVal → Str
  | .undef => str "undefined"
  | .nan => str "NaN"
  | .num n => if n < 0 then '-' :: natToStr n.natAbs else natToStr n.toNat

/-- JavaScript `parseInt(s, 10)`: skip leading whitespace, optional sign,
then a maximal run of digits; `NaN` when no digit is found. -/
def jsParseInt (s : Str) : JsVal :=
  let s1 := s.dropWhile isWsChar
  let (neg, s2) : Bool × Str :=
    match s1 with
    | '-' :: t => (true, t)
    | '+' :: t => (false, t)
    | t => (false, t)
  let ds := s2.takeWhile isDigitChar
  if ds.isEmpty then .nan
  else .num (if neg then -(digitsVal ds : Int) else (digitsVal ds : Int))

/-- Generic model of `String.prototype.match` for the anchored-free regexes
used by the parsers: try `tryAt` at every start position from the left and
return the first success. -/
def findFirst (tryAt : Str → Option α) : Str → Option α
  | [] => none
  | c :: t =>
    match tryAt (c :: t) with
    | some r => some r
    | none => findFirst tryAt t

/-- One attempt of a regex `KEY"([^"]+)"` at a fixed position, where `key`
is the literal text up to and including the opening quote: the capture is
the maximal nonempty run of non-quote characters, which must then be
followed by a closing quote. -/
def tryQuoted (key : Str) (s : Str) : Option Str :=
  if key.isPrefixOf s then
    let rest := s.drop key.length
    let run := rest.takeWhile (fun c => c != '"')
    if !run.isEmpty && run.length < rest.length then some run else none
  else none

/-- One attempt of a regex `KEY(\d+)` at a fixed position: the capture is a
maximal nonempty digit run right after the literal `key`. -/
def tryKeyDigits (key : Str) (s : Str) : Option Nat :=
  if key.isPrefixOf s then
    let rest := s.drop key.length
    let ds := rest.takeWhile isDigitChar
    if ds.isEmpty then none else some (digitsVal ds)
  else none

/-- One attempt of a regex `KEY(\d+),\s*(\d+)}` at a fixed position, where
`key` ends with the opening brace (the `position:{(\d+),\s*(\d+)}` pattern
of the AppleScript-based manager). -/
def tryPairWs (key : Str) (s : Str) : Option (Nat × Nat) :=
  if key.isPrefixOf s then
    let r1 := s.drop key.length
    let d1 := r1.takeWhile isDigitChar
    if d1.isEmpty then none
    else
      match r1.drop d1.length with
      | ',' :: r2 =>
        let r3 := r2.dropWhile isWsChar
        let d2 := r3.takeWhile isDigitChar
        if d2.isEmpty then none
        else
          match r3.drop d2.length with
          | '}' :: _ => some (digitsVal d1, digitsVal d2)
          | _ => none
      | _ => none
  else none

/-- One attempt of a regex `KEY(\d+), (\d+)}` at a fixed position, with a
literal comma-space separator (the `position:{(\d+), (\d+)}` pattern of the
alternate manager). -/
def tryPairExact (key : Str) (s : Str) : Option (Nat × Nat) :=
  if key.isPrefixOf s then
    let r1 := s.drop key.length
    let d1 := r1.takeWhile isDigitChar
    if d1.isEmpty then none
    else
      match r1.drop d1.length with
      | ',' :: ' ' :: r2 =>
        let d2 := r2.takeWhile isDigitChar
        if d2.isEmpty then none
        else
          match r2.drop d2.length with
          | '}' :: _ => some (digitsVal d1, digitsVal d2)
          | _ => none
      | _ => none
  else none

/-- Indexed map used to model `Array.prototype.map((x, index) => ...)`. -/
def mapIdxFrom (f : Nat → α → β) : Nat → List α → List β
  | _, [] => []
  | i, x :: t => f i x :: mapIdxFrom f (i + 1) t

namespace WindowManager

/-- Window bounds as built by the AppleScript-based parser; each slot is a
JavaScript number. -/
structure Bounds where
  x : JsVal
  y : JsVal
  width : JsVal
  height : JsVal
  deriving DecidableEq, Repr

/-- Runtime shape of the objects `parseWindowList` builds
(`Partial<WindowInfo>` in the source; the final `as WindowInfo` cast does
not change the runtime value, so emitted records keep this shape). -/
structure PWin where
  id : Option Str := none
  title : Option Str := none
  appName : Option Str := none
  pid : JsVal := .undef
  bounds : Option Bounds := none
  deriving DecidableEq, Repr

/-- The completeness guard `obj.appName && obj.pid && obj.title &&
obj.bounds` of `src/window/manager.ts` (lines 254 and 300). -/
def isComplete (o : PWin) : Bool :=
  strTruthy o.appName && o.pid.truthy && strTruthy o.title && o.bounds.isSome

/-- The synthesized identifier `` `${pid}-${Date.now()}` `` (lines 255, 301
and 345), with `Date.now()` modelled by the fixed `now` parameter. -/
def mkId (pid : JsVal) (now : Nat) : Str :=
  pid.render ++ '-' :: natToStr now

/-- Attribute extraction shared verbatim by the list branch (lines 220-251)
and the single-object branch (lines 266-297) of `parseWindowList`: the five
regex matches and the position/size merge into `bounds`. -/
def extractWindowObj (s : Str) : PWin :=
  let appName := findFirst (tryQuoted (str "procName:\"")) s
  let pid :=
    match findFirst (tryKeyDigits (str "procID:")) s with
    | some n => JsVal.num n
    | none => JsVal.undef
  let title := findFirst (tryQuoted (str "name:\"")) s
  let pos := findFirst (tryPairWs (str "position:\x7b")) s
  let siz := findFirst (tryPairWs (str "size:\x7b")) s
  let bounds : Option Bounds :=
    match pos, siz with
    | some (x, y), some (w, h) =>
      some ⟨.num x, .num y, .num w, .num h⟩
    | some (x, y), none => some ⟨.num x, .num y, .num 0, .num 0⟩
    | none, some (w, h) => some ⟨.num 0, .num 0, .num w, .num h⟩
    | none, none => none
  { appName := appName, pid := pid, title := title, bounds := bounds }

/-- The sibling splitter of the list branch (lines 189-214): counts brace
depth only (it is not quote-aware), pushes an object when the depth returns
to zero, and then skips the next two characters (`i += 2` plus the loop
increment).  Characters outside braces are appended only while the current
object is nonempty; the trailing buffer at end of input is discarded. -/
def splitGo (level : Int) (cur : Str) (acc : List Str) : Str → List Str
  | [] => acc
  | c :: rest =>
    if c = '{' then splitGo (level + 1) (cur ++ [c]) acc rest
    else if c = '}' then
      let level' := level - 1
      let cur' := cur ++ [c]
      if level' = 0 then
        match rest with
        | _ :: _ :: rest' => splitGo level' [] (acc ++ [cur']) rest'
        | _ => acc ++ [cur']
      else splitGo level' cur' acc rest
    else if level > 0 || !cur.isEmpty then splitGo level (cur ++ [c]) acc rest
    else splitGo level cur acc rest

/-- Entry point of the splitter: the caller has already stripped the outer
braces. -/
def splitWindowObjects (content : Str) : List Str :=
  splitGo 0 [] [] content

/-- State of the line-by-line fallback parser (lines 309-350): the partial
window under construction and the count of key lines absorbed into it. -/
structure LineSt where
  cur : PWin
  processed : Nat
  acc : List PWin
  deriving Repr

/-- JavaScript `line.replace(prefixText, '')` for a line that starts with
`prefixText`: the first occurrence is the prefix itself, so it is dropped. -/
def dropKey (key : Str) (line : Str) : Str := line.drop key.length

/-- Remove the first occurrence of a character (`replace('{', '')`). -/
def removeFirst (c : Char) : Str → Str
  | [] => []
  | x :: t => if x = c then t else x :: removeFirst c t

/-- The `position:`/`size:` value parser of the fallback branch:
`.trim().replace('{','').replace('}','')` then `.split(',')` and
`parseInt` of each trimmed part; destructuring a too-short array yields
`undefined`. -/
def parseNumPair (v : Str) : JsVal × JsVal :=
  let parts := (splitOnChar ',' (removeFirst '}' (removeFirst '{' (jsTrim v)))).map
    (fun p => jsParseInt (jsTrim p))
  (parts.headD .undef, (parts.drop 1).headD .undef)

/-- One line of the fallback parser (lines 313-349): recognize the five
`key:` prefixes on the trimmed line, mutate the current partial window,
bump the processed-line counter, and emit the partial window as soon as
five key lines (counted with repetition) have been absorbed. -/
def lineStep (now : Nat) (st : LineSt) (rawLine : Str) : LineSt :=
  let line := jsTrim rawLine
  let st' : LineSt :=
    if (str "procName:").isPrefixOf line then
      { st with cur := { st.cur with appName := some (jsTrim (dropKey (str "procName:") line)) },
                processed := st.processed + 1 }
    else if (str "procID:").isPrefixOf line then
      { st with cur := { st.cur with pid := jsParseInt (jsTrim (dropKey (str "procID:") line)) },
                processed := st.processed + 1 }
    else if (str "name:").isPrefixOf line then
      { st with cur := { st.cur with title := some (jsTrim (dropKey (str "name:") line)) },
                processed := st.processed + 1 }
    else if (str "position:").isPrefixOf line then
      let (x, y) := parseNumPair (dropKey (str "position:") line)
      { st with cur := { st.cur with bounds := some ⟨x, y, .num 0, .num 0⟩ },
                processed := st.processed + 1 }
    else if (str "size:").isPrefixOf line then
      let (w, h) := parseNumPair (dropKey (str "size:") line)
      let b : Bounds :=
        match st.cur.bounds with
        | some b0 => { b0 with width := w, height := h }
        | none => ⟨.num 0, .num 0, w, h⟩
      { st with cur := { st.cur with bounds := some b }, processed := st.processed + 1 }
    else st
  if st'.processed = 5 then
    { cur := {}, processed := 0,
      acc := st'.acc ++ [{ st'.cur with id := some (mkId st'.cur.pid now) }] }
  else st'

/-- `parseWindowList` of `src/window/manager.ts` (lines 172-357).
`Date.now()` is modelled by the `now` parameter, held fixed for the call.
The surrounding `try`/`catch` is dead in the model because every modelled
operation is total. -/
def parseWindowList (now : Nat) (output : Str) : List PWin :=
  if output.isEmpty then []
  else if output = str "\x7b\x7d" then []
  else if output.headI = '{' && containsSub output (str "procName:") then
    if (str "\x7b\x7b").isPrefixOf output then
      let content := (output.drop 1).dropLast
      let objs := splitWindowObjects content
      objs.foldl
        (fun arr objStr =>
          let o := extractWindowObj objStr
          if isComplete o then arr ++ [{ o with id := some (mkId o.pid now) }]
          else arr)
        []
    else
      let o := extractWindowObj output
      if isComplete o then [{ o with id := some (mkId o.pid now) }] else []
  else
    (((splitOnChar '\n' output).foldl (lineStep now) ⟨{}, 0, []⟩)).acc

/-- `listAllWindows` (lines 34-62): runs the AppleScript (whose outcome is
modelled as `Except Unit Str`) and parses the result; any enumeration
error is caught, logged, and converted into an empty list. -/
def listAllWindows (now : Nat) (raw : Except Unit Str) : List PWin :=
  match raw with
  | .error _ => []
  | .ok s => parseWindowList now s

/-- Integer-valued window bounds, the `bounds` member of `WindowInfo`
(lines 12-17). -/
structure IBounds where
  x : Int
  y : Int
  width : Int
  height : Int
  deriving DecidableEq, Repr

/-- The `WindowInfo` interface (lines 7-18) as used by the matcher and the
event monitor: a fully-populated window record. -/
structure WindowInfo where
  id : Str
  title : Str
  appName : Str
  pid : Int
  bounds : IBounds
  deriving DecidableEq, Repr

/-- The `WindowIdentifier` interface (lines 21-28): every field optional. -/
structure WindowIdentifier where
  id : Option Str := none
  pid : Option Int := none
  title : Option Str := none
  appName : Option Str := none
  position : Option (Int × Int) := none
  size : Option (Int × Int) := none
  deriving DecidableEq, Repr

/-- JavaScript `toLowerCase` (ASCII portion, which covers all inputs of
interest). -/
def lowerStr (s : Str) : Str := s.map Char.toLower

/-- The per-candidate score of `findMatchingWindow` (lines 116-148).  Each
guard starts with a truthiness test of the identifier field, so a missing
field, an empty-string field, or a zero pid contributes nothing. -/
def windowScore (ident : WindowIdentifier) (w : WindowInfo) : Int :=
  (match ident.id with
   | some s => if !s.isEmpty && w.id = s then 100 else 0
   | none => 0) +
  (match ident.pid with
   | some p => if p != 0 && w.pid = p then 50 else 0
   | none => 0) +
  (match ident.appName with
   | some a => if !a.isEmpty && containsSub (lowerStr w.appName) (lowerStr a) then 25 else 0
   | none => 0) +
  (match ident.title with
   | some t => if !t.isEmpty && containsSub (lowerStr w.title) (lowerStr t) then 20 else 0
   | none => 0) +
  (match ident.position with
   | some (px, py) => if (w.bounds.x - px).natAbs < 10 && (w.bounds.y - py).natAbs < 10 then 10 else 0
   | none => 0) +
  (match ident.size with
   | some (sw, sh) => if (w.bounds.width - sw).natAbs < 10 && (w.bounds.height - sh).natAbs < 10 then 10 else 0
   | none => 0)

/-- First element of maximal score.  This is what the source's stable
descending sort (`sort((a, b) => b.score - a.score)`) followed by `shift()`
returns: on ties the earlier candidate wins, and a later candidate replaces
the best only with a strictly greater score. -/
def bestOf : List (WindowInfo × Int) → Option (WindowInfo × Int)
  | [] => none
  | p :: ps =>
    match bestOf ps with
    | none => some p
    | some q => if q.2 > p.2 then some q else some p

/-- The pure selection pipeline of `findMatchingWindow` (lines 111-154)
over an explicit candidate list (the source obtains the candidates from
`listAllWindows` and then runs exactly this map/filter/sort/shift
pipeline). -/
def findMatchingWindow (ident : WindowIdentifier) (windows : List WindowInfo) :
    Option WindowInfo :=
  let scored := windows.map (fun w => (w, windowScore ident w))
  let positive := scored.filter (fun p => p.2 > 0)
  (bestOf positive).map (fun p => p.1)

end WindowManager

namespace WindowEventMonitor

open WindowManager (WindowInfo)

/-- Event kinds of `src/window/events.ts` (line 9). -/
inductive EventType where
  | created
  | closed
  | focused
  | moved
  | resized
  deriving DecidableEq, Repr

/-- A `WindowEvent` (lines 8-12).  The `timestamp: new Date()` field is a
wall-clock read with no further role in the subsystem and is not
modelled. -/
structure WindowEvent where
  type : EventType
  window : WindowInfo
  deriving DecidableEq, Repr

/-- JavaScript `Map` over string keys, as an insertion-ordered association
list; `set` overwrites in place, `get`/`has` find the unique entry. -/
def mapSet (m : List (Str × WindowInfo)) (k : Str) (v : WindowInfo) :
    List (Str × WindowInfo) :=
  if m.any (fun p => p.1 = k) then
    m.map (fun p => if p.1 = k then (k, v) else p)
  else m ++ [(k, v)]

/-- Lookup in the modelled `Map`. -/
def mapGet (m : List (Str × WindowInfo)) (k : Str) : Option WindowInfo :=
  (m.find? (fun p => p.1 = k)).map (fun p => p.2)

/-- One polling tick, `checkForWindowChanges` (lines 80-157 of
`src/window/events.ts`), as a pure function of the retained snapshot, the
freshly enumerated window list, and the focused-window query result.
Returns the emitted events in order and the replacement snapshot. -/
def checkForWindowChanges (last : List (Str × WindowInfo))
    (currentWindows : List WindowInfo) (active : Option WindowInfo) :
    List WindowEvent × List (Str × WindowInfo) :=
  let step := fun (st : List (Str × WindowInfo) × List Str × List WindowEvent)
      (w : WindowInfo) =>
    let (cwMap, seen, events) := st
    let cwMap := mapSet cwMap w.id w
    match mapGet last w.id with
    | some previous =>
      let seen := seen ++ [w.id]
      let events :=
        if w.bounds.x != previous.bounds.x || w.bounds.y != previous.bounds.y then
          events ++ [⟨.moved, w⟩]
        else events
      let events :=
        if w.bounds.width != previous.bounds.width || w.bounds.height != previous.bounds.height then
          events ++ [⟨.resized, w⟩]
        else events
      (cwMap, seen, events)
    | none => (cwMap, seen, events ++ [⟨.created, w⟩])
  let (cwMap, seen, events) := currentWindows.foldl step ([], [], [])
  let events := last.foldl
    (fun evs p => if seen.contains p.1 then evs else evs ++ [⟨.closed, p.2⟩])
    events
  let events :=
    match active with
    | some w => events ++ [⟨.focused, w⟩]
    | none => events
  (events, cwMap)

/-- Monitor bookkeeping state: the running flag, the retained snapshot map,
and the timer handle (`intervalId`). -/
structure MonitorState where
  isRunning : Bool
  lastWindowState : List (Str × WindowInfo)
  intervalId : Option Nat
  deriving DecidableEq, Repr

/-- `start` (lines 30-47): an early return when already running, otherwise
set the flag, fold the baseline enumeration into the retained snapshot map,
and install a timer (`timer` models the handle `setInterval` returns). -/
def start (s : MonitorState) (windows : List WindowInfo) (timer : Nat) :
    MonitorState :=
  if s.isRunning then s
  else
    { isRunning := true,
      lastWindowState := windows.foldl (fun m w => mapSet m w.id w) s.lastWindowState,
      intervalId := some timer }

/-- `stop` (lines 52-61): an early return when already stopped, otherwise
cancel the timer and clear the flag.  The second component lists the timer
handles passed to `clearInterval` by this call, so that "no duplicate
cleanup" is observable; the `intervalId` field itself is not cleared, as in
the source. -/
def stop (s : MonitorState) : MonitorState × List Nat :=
  if !s.isRunning then (s, [])
  else
    ({ s with isRunning := false },
      match s.intervalId with
      | some t => [t]
      | none => [])

end WindowEventMonitor

namespace AltWindowManager

/-- A window record as built by the alternate manager's `parseWindowList`
(the `get-windows`-based implementation).  All fields are always assigned;
only `pid` can be a non-integer JavaScript number (`parseInt` of a
free-form `procID:` value in the line branch can yield `NaN`). -/
structure WindowInfo where
  id : Str
  title : Str
  appName : Str
  pid : JsVal
  bounds : WindowManager.IBounds
  deriving DecidableEq, Repr

/-- Traversal state of `extractNestedObjects`: the raw previous character
(the source inspects `content[i - 1]`), the in-quotes flag, the brace
depth, the object under construction, and the objects already emitted. -/
structure SpState where
  prev : Option Char
  inQ : Bool
  depth : Int
  cur : Str
  acc : List Str
  deriving DecidableEq, Repr

/-- Quote and depth update of `extractNestedObjects` for one character: an
unescaped double quote (previous raw character not a backslash) toggles the
in-quotes flag first, and outside quotes braces adjust the depth. -/
def qdNext (prev : Option Char) (q : Bool) (d : Int) (c : Char) : Bool × Int :=
  let q' : Bool := if c == '"' && !(prev == some '\\') then !q else q
  let d' : Int :=
    if q' then d
    else if c == '{' then d + 1
    else if c == '}' then d - 1
    else d
  (q', d')

/-- One character of `extractNestedObjects` (lines 283-307): after the
quote/depth update, a comma at depth zero outside quotes terminates the
current object (pushed trimmed when nonempty, and not appended); every
other position appends the character. -/
def spStep (st : SpState) (c : Char) : SpState :=
  let (q, d) := qdNext st.prev st.inQ st.depth c
  if !q && c == ',' && d == 0 then
    { prev := some c, inQ := q, depth := d, cur := [],
      acc := if (jsTrim st.cur).isEmpty then st.acc else st.acc ++ [jsTrim st.cur] }
  else
    { prev := some c, inQ := q, depth := d, cur := st.cur ++ [c], acc := st.acc }

/-- `extractNestedObjects` (lines 274-315): strip the outer braces, run the
quote-aware, depth-aware splitter over the content, and append the final
buffer (trimmed, when nonempty). -/
def extractNestedObjects (output : Str) : List Str :=
  let content := (output.drop 1).dropLast
  let fin := content.foldl spStep ⟨none, false, 0, [], []⟩
  fin.acc ++ (if (jsTrim fin.cur).isEmpty then [] else [jsTrim fin.cur])

/-- Record construction of the nested branch (lines 191-218): the five
labeled regex matches on one extracted object, with defaults for every
missing attribute, and the id synthesized from the pid and the index of the
object in the current parse. -/
def mkNestedRecord (index : Nat) (windowObj : Str) : WindowInfo :=
  let procName := (findFirst (tryQuoted (str "procName:\"")) windowObj).getD (str "Unknown")
  let procID := (findFirst (tryKeyDigits (str "procID:")) windowObj).getD 0
  let name := (findFirst (tryQuoted (str "name:\"")) windowObj).getD (str "Untitled")
  let pos := findFirst (tryPairExact (str "position:\x7b")) windowObj
  let siz := findFirst (tryPairExact (str "size:\x7b")) windowObj
  { id := natToStr procID ++ '-' :: natToStr index,
    title := name,
    appName := procName,
    pid := .num procID,
    bounds :=
      { x := (pos.map (fun p => (p.1 : Int))).getD 0,
        y := (pos.map (fun p => (p.2 : Int))).getD 0,
        width := (siz.map (fun p => (p.1 : Int))).getD 0,
        height := (siz.map (fun p => (p.2 : Int))).getD 0 } }

/-- The key/value accumulation of the line branch (lines 228-235): each
line with at least one colon contributes `key = parts[0].trim()` mapped to
the re-joined, trimmed remainder; later lines overwrite earlier keys. -/
def windowDataOf (block : Str) : List (Str × Str) :=
  (splitOnChar '\n' block).foldl
    (fun m line =>
      let parts := splitOnChar ':' line
      match parts with
      | _ :: _ :: _ =>
        let key := jsTrim parts.headI
        let value := jsTrim (List.intercalate [':'] (parts.drop 1))
        if m.any (fun p => p.1 = key) then
          m.map (fun p => if p.1 = key then (key, value) else p)
        else m ++ [(key, value)]
      | _ => m)
    []

/-- Lookup in the accumulated key/value data. -/
def dataGet (m : List (Str × Str)) (k : Str) : Option Str :=
  (m.find? (fun p => p.1 = k)).map (fun p => p.2)

/-- Record construction of the line branch (lines 223-264): a record is
built for every block, with `Untitled`/`Unknown`/`0` defaults for falsy
values, `parseInt` of a truthy `procID`, and a `{(\d+), (\d+)}` match for
position and size. -/
def mkLineRecord (index : Nat) (block : Str) : WindowInfo :=
  let windowData := windowDataOf block
  let procIDRaw := dataGet windowData (str "procID")
  let posStr := dataGet windowData (str "position")
  let sizeStr := dataGet windowData (str "size")
  let pos := posStr.bind (findFirst (tryPairExact (str "\x7b")))
  let siz := sizeStr.bind (findFirst (tryPairExact (str "\x7b")))
  { id := (if strTruthy procIDRaw then procIDRaw.getD [] else str "0") ++ '-' :: natToStr index,
    title := if strTruthy (dataGet windowData (str "name")) then (dataGet windowData (str "name")).getD [] else str "Untitled",
    appName := if strTruthy (dataGet windowData (str "procName")) then (dataGet windowData (str "procName")).getD [] else str "Unknown",
    pid := if strTruthy procIDRaw then jsParseInt (procIDRaw.getD []) else .num 0,
    bounds :=
      { x := (pos.map (fun p => (p.1 : Int))).getD 0,
        y := (pos.map (fun p => (p.2 : Int))).getD 0,
        width := (siz.map (fun p => (p.1 : Int))).getD 0,
        height := (siz.map (fun p => (p.2 : Int))).getD 0 } }

/-- JavaScript `String.prototype.split` on the two-character separator
used by the line branch (`output.trim().split('\n\n')`): non-overlapping
occurrences, scanned left to right. -/
def splitOnBlank (s : Str) : List Str :=
  match s with
  | [] => [[]]
  | '\n' :: '\n' :: t => [] :: splitOnBlank t
  | c :: t =>
    match splitOnBlank t with
    | r :: rs => (c :: r) :: rs
    | [] => [[c]]

/-- `parseWindowList` of the alternate manager (lines 175-269): degenerate
and malformed-marker gates, then the nested branch when the output starts
with a doubled brace, else the blank-line-separated line branch.  Both
branches map every extracted group to a record. -/
def parseWindowList (output : Str) : List WindowInfo :=
  if output.isEmpty then []
  else if output = str "\x7b\x7d" then []
  else if containsSub output (str "incomplete data") || !containsSub output (str "procName:") then []
  else if (str "\x7b\x7b").isPrefixOf output then
    mapIdxFrom mkNestedRecord 0 (extractNestedObjects output)
  else
    mapIdxFrom mkLineRecord 0 (splitOnBlank (jsTrim output))

/-- Scan state used to classify strings the splitter keeps in one piece:
the raw previous character, the in-quotes flag, the brace depth, and
whether a depth-zero unquoted comma (a split point) was seen. -/
structure ScanSt where
  prev : Option Char
  inQ : Bool
  depth : Int
  bad : Bool
  deriving DecidableEq, Repr

/-- The classifier step: the same quote/depth update as `spStep`, plus the
record of whether this character would have been a split point. -/
def scStep (st : ScanSt) (c : Char) : ScanSt :=
  let (q, d) := qdNext st.prev st.inQ st.depth c
  { prev := some c, inQ := q, depth := d,
    bad := st.bad || (!q && c == ',' && d == 0) }

/-- A string is a well-formed sibling object for the splitter when it is
nonempty, carries no surrounding whitespace, closes all its quotes,
returns to brace depth zero, and contains no split point (every comma in
it is inside quotes or inside braces).  This is the shape of one
serialized window object, including ones whose string values contain
commas, braces and escaped quotes. -/
def SibOk (s : Str) : Bool :=
  let f := s.foldl scStep ⟨none, false, 0, false⟩
  !s.isEmpty && jsTrim s == s && !f.inQ && f.depth == 0 && !f.bad

/-- The serialized sibling list: objects joined by the comma-space
separator the external tool emits. -/
def joinSib : List Str → Str
  | [] => []
  | [s] => s
  | s :: t :: ts => s ++ ',' :: ' ' :: joinSib (t :: ts)

/-- A whole nested-object-list serialization: the joined siblings wrapped
in the outer braces. -/
def nestedInput (ss : List Str) : Str := '{' :: (joinSib ss ++ ['}'])

end AltWindowManager

namespace WindowEventMonitor

open WindowManager (WindowInfo)

/-- Window A of the event-monitor scenarios. -/
def windowA : WindowInfo :=
  ⟨str "5611-0", str "Netflix", str "Safari", 5611, ⟨18, 38, 774, 555⟩⟩

/-- Window B of the event-monitor scenarios. -/
def windowB : WindowInfo :=
  ⟨str "700-1", str "GitHub", str "Finder", 700, ⟨0, 0, 920, 436⟩⟩

/-- Window A after its x coordinate changed by 50, size unchanged. -/
def windowAMoved : WindowInfo :=
  ⟨str "5611-0", str "Netflix", str "Safari", 5611, ⟨68, 38, 774, 555⟩⟩

end WindowEventMonitor

namespace WindowManager

/-- Matcher candidate with pid 5611 (id `w1`). -/
def candidate5611 : WindowInfo :=
  ⟨str "w1", str "Netflix", str "Safari", 5611, ⟨18, 38, 774, 555⟩⟩

/-- Matcher candidate whose application name contains `chrome`. -/
def candidateChrome : WindowInfo :=
  ⟨str "w2", str "t", str "Google Chrome", 7, ⟨0, 0, 10, 10⟩⟩

end WindowManager

/-! ### General lemmas about the helpers -/

theorem mapIdxFrom_length (f : Nat → α → β) :
    ∀ (k : Nat) (l : List α), (mapIdxFrom f k l).length = l.length := by
  intro k l
  induction l generalizing k with
  | nil => rfl
  | cons x t ih => simp [mapIdxFrom, ih]

theorem mapIdxFrom_get? (f : Nat → α → β) :
    ∀ (k : Nat) (l : List α) (i : Nat),
      (mapIdxFrom f k l).get? i = (l.get? i).map (f (k + i)) := by
  intro k l
  induction l generalizing k with
  | nil => intro i; simp [mapIdxFrom]
  | cons x t ih =>
    intro i
    cases i with
    | zero => simp [mapIdxFrom]
    | succ j =>
      simp only [mapIdxFrom, List.get?_cons_succ, ih (k + 1) j]
      have h2 : k + 1 + j = k + (j + 1) := by omega
      rw [h2]

theorem jsTrim_cons_space (s : Str) : jsTrim (' ' :: s) = jsTrim s := by
  simp [jsTrim, List.dropWhile_cons, isWsChar]

namespace AltWindowManager

/-! ### The quote-aware splitter recovers well-formed siblings -/

theorem scStep_bad_mono : ∀ (s : Str) (st : ScanSt), st.bad = true →
    (s.foldl scStep st).bad = true := by
  intro s
  induction s with
  | nil => intro st h; simpa using h
  | cons c t ih =>
    intro st h
    simp only [List.foldl_cons]
    exact ih _ (by simp [scStep, h])

theorem sibOk_spec (s : Str) (h : SibOk s = true) :
    s.isEmpty = false ∧ jsTrim s = s ∧
    (s.foldl scStep ⟨none, false, 0, false⟩).inQ = false ∧
    (s.foldl scStep ⟨none, false, 0, false⟩).depth = 0 ∧
    (s.foldl scStep ⟨none, false, 0, false⟩).bad = false := by
  simp only [SibOk, Bool.and_eq_true, Bool.not_eq_true', beq_iff_eq] at h
  exact ⟨h.1.1.1.1, h.1.1.1.2, h.1.1.2, by simpa using h.1.2, h.2⟩

theorem simRun : ∀ (s : Str) (p₁ p₂ : Option Char) (q : Bool) (d : Int)
    (cur : Str) (acc : List Str),
    ((p₁ == some '\\') = (p₂ == some '\\')) →
    (s.foldl scStep ⟨p₁, q, d, false⟩).bad = false →
    ∃ pf, s.foldl spStep ⟨p₂, q, d, cur, acc⟩ =
      ⟨pf, (s.foldl scStep ⟨p₁, q, d, false⟩).inQ,
        (s.foldl scStep ⟨p₁, q, d, false⟩).depth, cur ++ s, acc⟩ := by
  intro s
  induction s with
  | nil =>
    intro p₁ p₂ q d cur acc hp hb
    exact ⟨p₂, by simp⟩
  | cons c t ih =>
    intro p₁ p₂ q d cur acc hp hb
    have hqd : qdNext p₂ q d c = qdNext p₁ q d c := by
      simp only [qdNext, hp]
    rcases hqd' : qdNext p₁ q d c with ⟨q', d'⟩
    have hsc : scStep ⟨p₁, q, d, false⟩ c =
        ⟨some c, q', d', (!q' && c == ',' && d' == 0)⟩ := by
      simp [scStep, hqd']
    simp only [List.foldl_cons, hsc] at hb ⊢
    cases hsplit : (!q' && c == ',' && d' == 0) with
    | true =>
      rw [hsplit] at hb
      rw [scStep_bad_mono t _ rfl] at hb
      exact absurd hb (by simp)
    | false =>
      rw [hsplit] at hb
      have hsp : spStep ⟨p₂, q, d, cur, acc⟩ c = ⟨some c, q', d', cur ++ [c], acc⟩ := by
        simp only [spStep, hqd, hqd']
        rw [hsplit]
        rfl
      rw [hsp]
      obtain ⟨pf, hrec⟩ := ih (some c) (some c) q' d' (cur ++ [c]) acc rfl hb
      exact ⟨pf, by rw [hrec]; simp⟩

theorem joinRun : ∀ (ts : List Str) (s : Str), SibOk s = true →
    (∀ t ∈ ts, SibOk t = true) →
    ∀ (p₀ : Option Char) (acc : List Str) (pre : Str),
    ((p₀ == some '\\') = false) →
    jsTrim (pre ++ s) = s →
    (let fin := (joinSib (s :: ts)).foldl spStep ⟨p₀, false, 0, pre, acc⟩
     fin.acc ++ (if (jsTrim fin.cur).isEmpty then [] else [jsTrim fin.cur])) =
      acc ++ s :: ts := by
  intro ts
  induction ts with
  | nil =>
    intro s hs _ p₀ acc pre hp htr
    obtain ⟨hne, _, hq, hd, hb⟩ := sibOk_spec s hs
    obtain ⟨pf, hrun⟩ := simRun s none p₀ false 0 pre acc (by simpa using hp.symm) hb
    simp only [joinSib, hrun, hq, hd, htr, hne]
    simp
  | cons t ts' ih =>
    intro s hs hts p₀ acc pre hp htr
    obtain ⟨hne, _, hq, hd, hb⟩ := sibOk_spec s hs
    obtain ⟨pf, hrun⟩ := simRun s none p₀ false 0 pre acc (by simpa using hp.symm) hb
    have hjoin : joinSib (s :: t :: ts') = s ++ ',' :: ' ' :: joinSib (t :: ts') := rfl
    rw [hjoin]
    simp only [List.foldl_append, List.foldl_cons, hrun, hq, hd]
    have hcomma : spStep ⟨pf, false, 0, pre ++ s, acc⟩ ',' =
        ⟨some ',', false, 0, [], acc ++ [s]⟩ := by
      simp [spStep, qdNext, htr, hne]
    have hspace : spStep ⟨some ',', false, 0, [], acc ++ [s]⟩ ' ' =
        ⟨some ' ', false, 0, [' '], acc ++ [s]⟩ := by
      simp [spStep, qdNext]
    rw [hcomma, hspace]
    obtain ⟨htOk, _, _⟩ : SibOk t = true ∧ True ∧ True :=
      ⟨hts t (by simp), trivial, trivial⟩
    obtain ⟨_, htrt, _, _, _⟩ := sibOk_spec t htOk
    have := ih t htOk (fun u hu => hts u (by simp [hu])) (some ' ') (acc ++ [s]) [' ']
      (by simp) (by rw [← List.singleton_append] at *; simpa [jsTrim_cons_space] using htrt)
    simp only [this]
    simp

/-- The splitter of the alternate manager recovers exactly the serialized
siblings: commas, braces and escaped quotes inside quoted values never
create or destroy a split point. -/
theorem extractNestedObjects_joinSib (s : Str) (ts : List Str)
    (hs : SibOk s = true) (hts : ∀ t ∈ ts, SibOk t = true) :
    extractNestedObjects (nestedInput (s :: ts)) = s :: ts := by
  obtain ⟨hne, htr, _, _, _⟩ := sibOk_spec s hs
  have hcontent : ((nestedInput (s :: ts)).drop 1).dropLast = joinSib (s :: ts) := by
    simp [nestedInput]
  have h := joinRun ts s hs hts none [] [] (by simp) (by simpa using htr)
  simp only [extractNestedObjects, hcontent]
  simpa using h

theorem joinSib_cons_eq_append (s : Str) (ts : List Str) :
    ∃ r, joinSib (s :: ts) = s ++ r := by
  cases ts with
  | nil => exact ⟨[], by simp [joinSib]⟩
  | cons t ts' => exact ⟨',' :: ' ' :: joinSib (t :: ts'), rfl⟩

theorem parseWindowList_nested_branch (s : Str)
    (h3 : (str "\x7b\x7b").isPrefixOf s = true)
    (hp : containsSub s (str "procName:") = true)
    (hi : containsSub s (str "incomplete data") = false) :
    parseWindowList s = mapIdxFrom mkNestedRecord 0 (extractNestedObjects s) := by
  obtain ⟨c1, s1, rfl⟩ : ∃ c1 s1, s = c1 :: s1 := by
    cases s with
    | nil => simp [str, List.isPrefixOf] at h3
    | cons c1 s1 => exact ⟨c1, s1, rfl⟩
  have hne2 : c1 :: s1 ≠ str "\x7b\x7d" := by
    intro he
    rw [he] at h3
    exact absurd h3 (by decide)
  simp only [parseWindowList, List.isEmpty_cons, hp, hi, h3, Bool.false_or,
    Bool.not_true, if_neg hne2]
  simp

/-- In the alternate manager's nested branch, every sibling object the
splitter extracts is emitted as a record at the same index (none are
dropped), and any of the five attributes that fails to match on that
object's text is replaced by its default: `Unknown` app name, `Untitled`
title, pid `0`, and zero-valued position/size components.  This is the
defaulting behavior the specification describes; compare
`WindowManager.nested_incomplete_sibling_dropped` for the AppleScript
implementation. -/
theorem nested_missing_attrs_defaulted (s : Str)
    (h3 : (str "\x7b\x7b").isPrefixOf s = true)
    (hp : containsSub s (str "procName:") = true)
    (hi : containsSub s (str "incomplete data") = false) :
    (parseWindowList s).length = (extractNestedObjects s).length ∧
    ∀ i o, (extractNestedObjects s).get? i = some o →
      ∃ r, (parseWindowList s).get? i = some r ∧
        (findFirst (tryQuoted (str "procName:\"")) o = none →
          r.appName = str "Unknown") ∧
        (findFirst (tryQuoted (str "name:\"")) o = none →
          r.title = str "Untitled") ∧
        (findFirst (tryKeyDigits (str "procID:")) o = none →
          r.pid = JsVal.num 0) ∧
        (findFirst (tryPairExact (str "position:\x7b")) o = none →
          r.bounds.x = 0 ∧ r.bounds.y = 0) ∧
        (findFirst (tryPairExact (str "size:\x7b")) o = none →
          r.bounds.width = 0 ∧ r.bounds.height = 0) := by
  have hparse := parseWindowList_nested_branch s h3 hp hi
  constructor
  · rw [hparse, mapIdxFrom_length]
  · intro i o hio
    refine ⟨mkNestedRecord i o, ?_, ?_, ?_, ?_, ?_, ?_⟩
    · rw [hparse, mapIdxFrom_get?, hio]
      simp
    · intro hnone; simp [mkNestedRecord, hnone]
    · intro hnone; simp [mkNestedRecord, hnone]
    · intro hnone; simp [mkNestedRecord, hnone]
    · intro hnone; exact ⟨by simp [mkNestedRecord, hnone], by simp [mkNestedRecord, hnone]⟩
    · intro hnone; exact ⟨by simp [mkNestedRecord, hnone], by simp [mkNestedRecord, hnone]⟩

/-- Instance of `nested_missing_attrs_defaulted` at a concrete input: the
second sibling `{procID:42}` has no `procName`, `name`, `position` or
`size` attribute, yet is emitted at index 1 with all defaults. -/
theorem nested_missing_attrs_defaulted_witness :
    ∃ r, (parseWindowList (str "\x7b\x7bprocName:\"Safari\"\x7d, \x7bprocID:42\x7d\x7d")).get? 1 = some r ∧
      (findFirst (tryQuoted (str "procName:\"")) (str "\x7bprocID:42\x7d") = none →
        r.appName = str "Unknown") ∧
      (findFirst (tryQuoted (str "name:\"")) (str "\x7bprocID:42\x7d") = none →
        r.title = str "Untitled") ∧
      (findFirst (tryKeyDigits (str "procID:")) (str "\x7bprocID:42\x7d") = none →
        r.pid = JsVal.num 0) ∧
      (findFirst (tryPairExact (str "position:\x7b")) (str "\x7bprocID:42\x7d") = none →
        r.bounds.x = 0 ∧ r.bounds.y = 0) ∧
      (findFirst (tryPairExact (str "size:\x7b")) (str "\x7bprocID:42\x7d") = none →
        r.bounds.width = 0 ∧ r.bounds.height = 0) :=
  (nested_missing_attrs_defaulted (str "\x7b\x7bprocName:\"Safari\"\x7d, \x7bprocID:42\x7d\x7d")
    (by decide) (by decide) (by decide)).2 1 (str "\x7bprocID:42\x7d") (by decide)

/-- For every serialized sibling list, the alternate manager's splitting
is unaffected by commas, braces or escaped quotes inside double-quoted
string values (any `SibOk` sibling may contain them): the splitter returns
exactly the original siblings, the parse emits exactly one record per
sibling, and record `i` is computed from sibling `i`'s own text alone.
This is the quote-aware behavior the specification describes; compare
`WindowManager.quoted_brace_missplits_siblings` for the AppleScript
implementation. -/
theorem nested_splitter_quote_aware (s : Str) (ts : List Str)
    (h0 : s.head? = some '{')
    (hs : SibOk s = true)
    (hts : ∀ t ∈ ts, SibOk t = true)
    (hp : containsSub (nestedInput (s :: ts)) (str "procName:") = true)
    (hi : containsSub (nestedInput (s :: ts)) (str "incomplete data") = false) :
    extractNestedObjects (nestedInput (s :: ts)) = s :: ts ∧
    parseWindowList (nestedInput (s :: ts)) =
      mapIdxFrom mkNestedRecord 0 (s :: ts) ∧
    (parseWindowList (nestedInput (s :: ts))).length = (s :: ts).length := by
  obtain ⟨u, rfl⟩ : ∃ u, s = '{' :: u := by
    cases s with
    | nil => simp at h0
    | cons c u => exact ⟨u, by simp at h0; rw [h0]⟩
  have hext := extractNestedObjects_joinSib ('{' :: u) ts hs hts
  have h3 : (str "\x7b\x7b").isPrefixOf (nestedInput (('{' :: u) :: ts)) = true := by
    obtain ⟨r, hr⟩ := joinSib_cons_eq_append ('{' :: u) ts
    simp [nestedInput, hr, str, List.isPrefixOf]
  have hparse := parseWindowList_nested_branch (nestedInput (('{' :: u) :: ts)) h3 hp hi
  refine ⟨hext, ?_, ?_⟩
  · rw [hparse, hext]
  · rw [hparse, hext, mapIdxFrom_length]

/-- Instance of `nested_splitter_quote_aware` at a concrete input: the
first sibling's `name` value contains literal commas, braces and escaped
quotes, and the two siblings are still recovered exactly, with one record
each. -/
theorem nested_splitter_quote_aware_witness :
    extractNestedObjects (nestedInput
      [str "\x7bprocName:\"Code\", procID:3, name:\"a, b \x7bx, y\x7d \\\"q\\\", c\", position:\x7b7, 8\x7d, size:\x7b9, 10\x7d\x7d",
       str "\x7bprocName:\"Finder\", procID:610, name:\"GitHub\", position:\x7b249, 151\x7d, size:\x7b920, 436\x7d\x7d"]) =
      [str "\x7bprocName:\"Code\", procID:3, name:\"a, b \x7bx, y\x7d \\\"q\\\", c\", position:\x7b7, 8\x7d, size:\x7b9, 10\x7d\x7d",
       str "\x7bprocName:\"Finder\", procID:610, name:\"GitHub\", position:\x7b249, 151\x7d, size:\x7b920, 436\x7d\x7d"] ∧
    parseWindowList (nestedInput
      [str "\x7bprocName:\"Code\", procID:3, name:\"a, b \x7bx, y\x7d \\\"q\\\", c\", position:\x7b7, 8\x7d, size:\x7b9, 10\x7d\x7d",
       str "\x7bprocName:\"Finder\", procID:610, name:\"GitHub\", position:\x7b249, 151\x7d, size:\x7b920, 436\x7d\x7d"]) =
      mapIdxFrom mkNestedRecord 0
      [str "\x7bprocName:\"Code\", procID:3, name:\"a, b \x7bx, y\x7d \\\"q\\\", c\", position:\x7b7, 8\x7d, size:\x7b9, 10\x7d\x7d",
       str "\x7bprocName:\"Finder\", procID:610, name:\"GitHub\", position:\x7b249, 151\x7d, size:\x7b920, 436\x7d\x7d"] ∧
    (parseWindowList (nestedInput
      [str "\x7bprocName:\"Code\", procID:3, name:\"a, b \x7bx, y\x7d \\\"q\\\", c\", position:\x7b7, 8\x7d, size:\x7b9, 10\x7d\x7d",
       str "\x7bprocName:\"Finder\", procID:610, name:\"GitHub\", position:\x7b249, 151\x7d, size:\x7b920, 436\x7d\x7d"])).length = 2 :=
  nested_splitter_quote_aware
    (str "\x7bprocName:\"Code\", procID:3, name:\"a, b \x7bx, y\x7d \\\"q\\\", c\", position:\x7b7, 8\x7d, size:\x7b9, 10\x7d\x7d")
    [str "\x7bprocName:\"Finder\", procID:610, name:\"GitHub\", position:\x7b249, 151\x7d, size:\x7b920, 436\x7d\x7d"]
    (by decide) (by decide) (by decide) (by decide) (by decide)

end AltWindowManager

namespace WindowManager

/-- C7: over a candidate set containing one window with pid 5611, an
identifier with only `pid = 5611` set gives that candidate score 50 and the
candidate is returned; an identifier with no fields set returns none; and a
candidate matching both the identifier's id and pid scores 150, ranking
above a candidate matching only the identifier's appName (score 25), so the
id-and-pid candidate is returned even when listed after the other. -/
theorem matcher_scores_and_selection :
    windowScore { pid := some 5611 } candidate5611 = 50 ∧
    findMatchingWindow { pid := some 5611 } [candidate5611] = some candidate5611 ∧
    findMatchingWindow {} [candidate5611] = none ∧
    windowScore { id := some (str "w1"), pid := some 5611, appName := some (str "chrome") }
      candidate5611 = 150 ∧
    windowScore { id := some (str "w1"), pid := some 5611, appName := some (str "chrome") }
      candidateChrome = 25 ∧
    findMatchingWindow { id := some (str "w1"), pid := some 5611, appName := some (str "chrome") }
      [candidateChrome, candidate5611] = some candidate5611 := by
  decide

/-- C10: identifier fields holding falsy values (pid 0, empty-string id,
title or appName) contribute zero score even on exact equality with the
candidate's field, and an identifier whose only set field is `pid = 0`
returns none for every candidate list, including lists containing a window
with pid 0. -/
theorem falsy_identifier_fields_score_zero :
    (∀ w : WindowInfo, windowScore { pid := some 0 } w = 0) ∧
    (∀ w : WindowInfo,
      windowScore { id := some [], title := some [], appName := some [], pid := some 0 } w = 0) ∧
    (∀ ws : List WindowInfo, findMatchingWindow { pid := some 0 } ws = none) := by
  have hz : ∀ w : WindowInfo, windowScore { pid := some 0 } w = 0 := by
    intro w; simp [windowScore]
  refine ⟨hz, ?_, ?_⟩
  · intro w; simp [windowScore]
  · intro ws
    simp only [findMatchingWindow]
    have hf : (ws.map fun w => (w, windowScore { pid := some 0 } w)).filter
        (fun p => p.2 > 0) = [] := by
      induction ws with
      | nil => rfl
      | cons w t ih => simp [hz w, ih]
    rw [hf]
    rfl

/-- C8: the parser is total by construction (it is a function on all
strings), the empty string and the literal token `{}` each yield an empty
sequence, and the malformed input with an unterminated string and
unbalanced braces yields an empty sequence rather than an exception. -/
theorem parse_total_and_degenerate_inputs :
    (∀ (now : Nat) (s : Str), ∃ l, parseWindowList now s = l) ∧
    parseWindowList 0 (str "") = [] ∧
    parseWindowList 0 (str "\x7b\x7d") = [] ∧
    parseWindowList 0 (str "\x7bprocName:\"Broken, procID:1234, incomplete data\x7d") = [] :=
  ⟨fun _ _ => ⟨_, rfl⟩, by decide, by decide, by decide⟩

/-- C4 (divergence exhibit): in one parse call with the capture timestamp
held fixed at 99, two nested objects carrying the same process identifier
7 produce two distinct records that share the synthesized id `7-99` — the
ids of a single parse result are not pairwise distinct. -/
theorem same_pid_records_share_id :
    (parseWindowList 99 (str "\x7b\x7bprocName:\"A\", procID:7, name:\"x\", position:\x7b1, 2\x7d, size:\x7b3, 4\x7d\x7d, \x7bprocName:\"B\", procID:7, name:\"y\", position:\x7b5, 6\x7d, size:\x7b7, 8\x7d\x7d\x7d")).map
        (fun r => (r.id, r.title)) =
      [(some (str "7-99"), some (str "x")), (some (str "7-99"), some (str "y"))] := by
  decide

/-- C2 (divergence exhibit): in the nested-object-list grammar of the
AppleScript implementation, a sibling object extracted by the splitter
that is missing attributes is not emitted with defaults substituted: the
completeness guard `obj.appName && obj.pid && obj.title && obj.bounds`
drops it.  The splitter extracts two siblings here, but only the complete
one becomes a record; `{procID:42}` vanishes from the parse result. -/
theorem nested_incomplete_sibling_dropped :
    splitWindowObjects
        (str "\x7bprocName:\"Safari\", procID:610, name:\"GitHub\", position:\x7b1, 2\x7d, size:\x7b3, 4\x7d\x7d, \x7bprocID:42\x7d") =
      [str "\x7bprocName:\"Safari\", procID:610, name:\"GitHub\", position:\x7b1, 2\x7d, size:\x7b3, 4\x7d\x7d",
       str "\x7bprocID:42\x7d"] ∧
    (parseWindowList 99
        (str "\x7b\x7bprocName:\"Safari\", procID:610, name:\"GitHub\", position:\x7b1, 2\x7d, size:\x7b3, 4\x7d\x7d, \x7bprocID:42\x7d\x7d")).map
        (fun r => (r.appName, r.pid, r.title)) =
      [(some (str "Safari"), JsVal.num 610, some (str "GitHub"))] := by
  decide

/-- C3 (divergence exhibit): the AppleScript implementation's sibling
splitter counts brace depth without quote awareness, so a double-quoted
title containing a literal closing brace terminates its object early: the
two siblings of this input are split into four fragments, the truncated
first sibling then loses its `name` match and is dropped by the
completeness guard, and the parse returns one record instead of two. -/
theorem quoted_brace_missplits_siblings :
    splitWindowObjects
        (str "\x7bprocName:\"A\", procID:1, name:\"x \x7d y\", position:\x7b1, 2\x7d, size:\x7b3, 4\x7d\x7d, \x7bprocName:\"B\", procID:2, name:\"z\", position:\x7b5, 6\x7d, size:\x7b7, 8\x7d\x7d") =
      [str "\x7bprocName:\"A\", procID:1, name:\"x \x7d",
       str "\x7b1, 2\x7d",
       str "\x7b3, 4\x7d",
       str "\x7bprocName:\"B\", procID:2, name:\"z\", position:\x7b5, 6\x7d, size:\x7b7, 8\x7d\x7d"] ∧
    (parseWindowList 99
        (str "\x7b\x7bprocName:\"A\", procID:1, name:\"x \x7d y\", position:\x7b1, 2\x7d, size:\x7b3, 4\x7d\x7d, \x7bprocName:\"B\", procID:2, name:\"z\", position:\x7b5, 6\x7d, size:\x7b7, 8\x7d\x7d\x7d")).map
        (fun r => r.appName) =
      [some (str "B")] := by
  decide

/-- C5 (divergence exhibit): a line-block group in which the `procName`
key repeats five times while `procID`, `name`, `position` and `size` never
appear is not dropped: the fallback parser counts key lines with
repetition, so it emits a record whose pid is `undefined`, whose title and
bounds are missing, and whose id renders the undefined pid. -/
theorem line_parser_emits_incomplete_on_repeats :
    parseWindowList 42 (str "procName: A\nprocName: B\nprocName: C\nprocName: D\nprocName: E") =
      [{ id := some (str "undefined-42"), title := none, appName := some (str "E"),
         pid := JsVal.undef, bounds := none }] := by
  decide

end WindowManager

namespace WindowEventMonitor

/-- C6: from a baseline containing window A, a tick whose snapshot holds A
unchanged plus a new window B emits exactly one `created` event (for B)
and nothing else; a tick from `{A, B}` whose snapshot lacks A's id emits
exactly one `closed` event carrying A's last-known record; and a tick in
which A's x coordinate changed by 50 with the size unchanged emits exactly
one `moved` event and no `resized` event. -/
theorem differ_created_closed_moved :
    checkForWindowChanges (start ⟨false, [], none⟩ [windowA] 1).lastWindowState
        [windowA, windowB] none =
      ([⟨.created, windowB⟩], [(windowA.id, windowA), (windowB.id, windowB)]) ∧
    checkForWindowChanges [(windowA.id, windowA), (windowB.id, windowB)] [windowB] none =
      ([⟨.closed, windowA⟩], [(windowB.id, windowB)]) ∧
    checkForWindowChanges (start ⟨false, [], none⟩ [windowA] 1).lastWindowState
        [windowAMoved] none =
      ([⟨.moved, windowAMoved⟩], [(windowAMoved.id, windowAMoved)]) := by
  decide

/-- C1 (divergence exhibit): when enumeration fails, `listAllWindows`
catches the error and returns the empty list, so the monitor's tick runs
against an empty snapshot: it emits a `closed` event for every window of
the previous snapshot and replaces the retained snapshot with the empty
one, instead of skipping the tick. -/
theorem enum_failure_fabricates_closed_events :
    WindowManager.listAllWindows 0 (Except.error ()) = [] ∧
    checkForWindowChanges [(windowA.id, windowA)] [] none =
      ([⟨.closed, windowA⟩], []) :=
  ⟨rfl, by decide⟩

/-- C9: `start` on an already-running monitor returns the state unchanged
(the retained snapshot is not reset and no baseline is re-captured);
`stop` on a stopped monitor is a no-op performing no cleanup; and the
second of two consecutive `stop` calls never cancels a timer again. -/
theorem monitor_start_stop_idempotent :
    (∀ (s : MonitorState) (ws : List WindowManager.WindowInfo) (t : Nat),
      s.isRunning = true → start s ws t = s) ∧
    (∀ s : MonitorState, s.isRunning = false → stop s = (s, [])) ∧
    (∀ s : MonitorState, stop (stop s).1 = ((stop s).1, [])) := by
  refine ⟨?_, ?_, ?_⟩
  · intro s ws t h
    simp [start, h]
  · intro s h
    simp [stop, h]
  · intro s
    by_cases h : s.isRunning
    · simp [stop, h]
    · simp [stop, h]

/-- Witness for C9 at concrete states: a running monitor with a retained
snapshot and timer 5 is unchanged by `start`, a stopped monitor is
unchanged by `stop`, and stopping twice cleans up nothing the second
time. -/
theorem monitor_start_stop_idempotent_witness :
    start ⟨true, [(windowA.id, windowA)], some 5⟩ [windowB] 9 =
      ⟨true, [(windowA.id, windowA)], some 5⟩ ∧
    stop ⟨false, [], none⟩ = (⟨false, [], none⟩, []) ∧
    stop (stop ⟨true, [(windowA.id, windowA)], some 5⟩).1 =
      ((stop ⟨true, [(windowA.id, windowA)], some 5⟩).1, []) :=
  ⟨monitor_start_stop_idempotent.1 _ [windowB] 9 rfl,
   monitor_start_stop_idempotent.2.1 _ rfl,
   monitor_start_stop_idempotent.2.2 _⟩

end WindowEventMonitor
